import Mathlib

/-!
Verification of the turbulence-layer parameterization and cutoff-sweep logic of
`devel/modules/atmValidate/secondKick.py` (GalSim).  The script's exact
arithmetic over layer counts, weights and paths is embedded over `ℚ`/`ℕ`;
the transcendental parts (`np.logspace`, `**(-3/5)`) are embedded over `ℝ`.
The layer-profile lines operate on NumPy float arrays, whose division by a
zero denominator raises nothing: under the default errstate it emits a
`RuntimeWarning` and yields a non-finite value (nan for `0/0`).  That value
domain is embedded as `Option ℚ` (`some q` a finite value, `none` a
non-finite one); the finite-regime view `layerProfile` is derived from it.
-/

/-- Reference altitudes (km) from the script (`Ellerbroek_alts`). -/
def Ellerbroek_alts : List ℚ := [0.0, 2.58, 5.16, 7.73, 12.89, 15.46]

/-- Reference weights from the script (`Ellerbroek_weights`). -/
def Ellerbroek_weights : List ℚ := [0.652, 0.172, 0.055, 0.025, 0.074, 0.022]

/-- Modelled from the spec: `galsim.LookupTable(..., interpolant='linear')`
(the GalSim `LookupTable` implementation is not under `src/`); piecewise
linear interpolation over a table of `(x, y)` pairs sorted by `x`. -/
def lininterp : List (ℚ × ℚ) → ℚ → ℚ
  | [], _ => 0
  | [(_, y)], _ => y
  | (x1, y1) :: (x2, y2) :: rest, x =>
      if x ≤ x2 then y1 + (y2 - y1) * (x - x1) / (x2 - x1)
      else lininterp ((x2, y2) :: rest) x

/-- `Ellerbroek_interp` from the script: the linear lookup table built from
the reference altitude/weight lists. -/
def Ellerbroek_interp (x : ℚ) : ℚ :=
  lininterp (Ellerbroek_alts.zip Ellerbroek_weights) x

/-- `np.max(Ellerbroek_alts)` (all entries are nonnegative). -/
def maxRefAlt : ℚ := Ellerbroek_alts.foldl max 0

/-- NumPy float division (default errstate): a zero denominator raises no
exception — it emits only a `RuntimeWarning` and produces a non-finite value
(nan for a zero numerator, ±inf otherwise), embedded as `none`. -/
def npDiv (x d : ℚ) : Option ℚ :=
  if d = 0 then none else some (x / d)

/-- Line 67 exactly as NumPy evaluates it:
`np.max(Ellerbroek_alts)*np.arange(nlayers)/(nlayers-1)`, elementwise over
the nan-able float domain.  Total: no input raises. -/
def altsNp (nlayers : ℕ) : List (Option ℚ) :=
  (List.range nlayers).map
    (fun i : ℕ => npDiv (maxRefAlt * (i : ℚ)) ((nlayers : ℚ) - 1))

/-- Modelled from the spec: `galsim.LookupTable` evaluation on the nan-able
domain.  A nan input passes the table's range check (nan comparisons are
false) and the interpolation yields nan; a finite in-range input yields the
linear interpolant. -/
def interpNp (x : Option ℚ) : Option ℚ := x.map Ellerbroek_interp

/-- `sum(weights)` over the nan-able domain: non-finite if any term is. -/
def npSum (l : List (Option ℚ)) : Option ℚ :=
  l.foldr
    (fun a s =>
      match a, s with
      | some x, some y => some (x + y)
      | _, _ => none)
    (some 0)

/-- Elementwise `weights /= sum` over the nan-able domain. -/
def npDivOpt (x s : Option ℚ) : Option ℚ :=
  match x, s with
  | some a, some b => npDiv a b
  | _, _ => none

/-- Lines 66-69 of the script over the NumPy float domain: place the
altitudes, interpolate the reference weights at them, renormalize to unit
sum.  Total — these lines never raise; at `nlayers = 1` they yield nan
entries.  Returns `(alts, weights)`. -/
def layerProfileNp (nlayers : ℕ) : List (Option ℚ) × List (Option ℚ) :=
  let alts := altsNp nlayers
  let ws := alts.map interpNp
  (alts, ws.map (fun w => npDivOpt w (npSum ws)))

/-- Extract a finite-rational list when every entry is finite. -/
def seqOpt : List (Option ℚ) → Option (List ℚ)
  | [] => some []
  | none :: _ => none
  | some x :: rest => (seqOpt rest).map (x :: ·)

/-- The finite-regime view of `layerProfileNp`: `ok` when every NumPy value
is finite (every case except `nlayers = 1`), and an `error` marker when the
profile contains non-finite entries that `List ℚ` cannot represent.  The
marker is a projection artifact of this view, not an exception of the code:
the faithful embedding `layerProfileNp` is total. -/
def layerProfile (nlayers : ℕ) : Except String (List ℚ × List ℚ) :=
  match seqOpt (layerProfileNp nlayers).1, seqOpt (layerProfileNp nlayers).2 with
  | some alts, some ws => Except.ok (alts, ws)
  | _, _ => Except.error "nan"

/-! ### Wind assignment (lines 77-82 of the script)

`galsim.BaseDeviate`/`galsim.UniformDeviate` are GalSim library code not under
`src/`.  Modelled from the spec: a caller-supplied deterministic random
stream returning uniform values in `[0, 1)`, embedded as a concrete linear
congruential generator whose state is advanced once per draw. -/

/-- Modelled from the spec: one state advance of the deterministic uniform
stream. -/
def lcg (s : ℕ) : ℕ := (25214903917 * s + 11) % 2 ^ 48

/-- The stream state after `k` advances from the given seed. -/
def streamState (seed : ℕ) : ℕ → ℕ
  | 0 => seed % 2 ^ 48
  | k + 1 => lcg (streamState seed k)

/-- The value in `[0, 1)` returned by the `k`-th call (0-indexed) of the
uniform deviate built from `seed`. -/
def uDraw (seed k : ℕ) : ℚ := (streamState seed (k + 1) : ℚ) / 2 ^ 48

/-- The loop body of lines 80-82: for each layer, draw a speed
`u()*max_speed` and then a direction `u()*360` degrees, threading the
stream state. -/
def windLoop (maxSpeed : ℚ) (st : ℕ) : ℕ → List (ℚ × ℚ)
  | 0 => []
  | n + 1 =>
      ((lcg st : ℚ) / 2 ^ 48 * maxSpeed,
       (lcg (lcg st) : ℚ) / 2 ^ 48 * 360)
        :: windLoop maxSpeed (lcg (lcg st)) n

/-- The wind-assignment step: one `(speed, direction)` pair per layer, drawn
from the uniform stream seeded with `seed`, speed first, then direction. -/
def windAssignment (seed nlayers : ℕ) (maxSpeed : ℚ) : List (ℚ × ℚ) :=
  windLoop maxSpeed (streamState seed 0) nlayers

/-! ### Cutoff sweep (lines 105-116 of the script) -/

/-- `np.logspace(a, b, num)`: `num` samples of `10**x` for `x` uniformly
spaced from `a` to `b` inclusive. -/
noncomputable def logspace (a b : ℝ) (num : ℕ) : List ℝ :=
  (List.range num).map
    (fun i : ℕ => (10 : ℝ) ^ (a + (i : ℝ) * (b - a) / ((num : ℝ) - 1)))

/-- Line 105: `kcrits = np.logspace(np.log10(kmin), np.log10(kmax), 4)`. -/
noncomputable def kcrits (kmin kmax : ℝ) : List ℝ :=
  logspace (Real.logb 10 kmin) (Real.logb 10 kmax) 4

/-- One iteration of the cutoff sweep: the cutoff value and the seed of the
fresh deviate handed to the screen-stack constructor
(`atmRng = galsim.BaseDeviate(args.seed+1)`, line 110). -/
structure SweepIter where
  kcrit : ℝ
  atmSeed : ℕ

/-- Lines 107-116: for each cutoff value, a fresh deviate seeded with
`seed + 1` is created for the atmosphere construction. -/
noncomputable def sweepIters (seed : ℕ) (kmin kmax : ℝ) : List SweepIter :=
  (kcrits kmin kmax).map (fun kc => ⟨kc, seed + 1⟩)

/-! ### Per-layer Fried parameter (lines 90 and 96 of the script) -/

/-- Line 90: `r0_500.append(args.r0_500*weights[i]**(-3./5))`. -/
noncomputable def layer_r0 (net w : ℝ) : ℝ := net * w ^ (-(3 : ℝ) / 5)

/-- Line 96: `r0_500 = [r*args.turb_factor**(-3./5) for r in r0_500]`. -/
noncomputable def apply_turb_factor (tf : ℝ) (rs : List ℝ) : List ℝ :=
  rs.map (fun r => r * tf ^ (-(3 : ℝ) / 5))

/-! ### Per-sweep-point measurement and panel assembly (lines 127-159)

`galsim.hsm.FindAdaptiveMom` may raise a `RuntimeError` (non-convergence);
the script wraps each call in `try/except RuntimeError` and substitutes
`None`.  The fitter is embedded as a function into `Except Unit ℚ` whose
`error` case is the recoverable `RuntimeError`. -/

/-- One column of the output figure: the two rendered images (always shown
via `imshow`, lines 149-150) and the optional size annotations (lines
152-158, present only when the corresponding fit succeeded). -/
structure Panel (Img : Type) where
  topImage : Img
  botImage : Img
  topText : Option ℚ
  botText : Option ℚ

/-- Lines 139-147: call the adaptive-moment fitter, mapping its recoverable
error to `none` (the `try/except RuntimeError` block), without retrying. -/
def tryFindAdaptiveMom {Img : Type} (fit : Img → Except Unit ℚ) (img : Img) :
    Option ℚ :=
  match fit img with
  | Except.ok m => some m
  | Except.error _ => none

/-- Lines 139-159 for a single cutoff value: measure both images and build
the figure column. -/
def processPanel {Img : Type} (fit : Img → Except Unit ℚ)
    (fftImg skImg : Img) : Panel Img :=
  ⟨fftImg, skImg, tryFindAdaptiveMom fit fftImg, tryFindAdaptiveMom fit skImg⟩

/-- The whole cutoff sweep, lines 107-159: one panel per cutoff value,
rendering the two images (`render`) and measuring them (`fit`). -/
noncomputable def sweepPanels {Img : Type} (fit : Img → Except Unit ℚ)
    (render : ℝ → Img × Img) (kmin kmax : ℝ) : List (Panel Img) :=
  (kcrits kmin kmax).map (fun kc => processPanel fit (render kc).1 (render kc).2)

/-! ### Image rendering calls (lines 127-137) -/

/-- The command-line arguments consumed by the two `drawImage` calls. -/
structure Args where
  nx : ℕ
  scale : ℚ
  nphot : ℕ

/-- Rendering method selected by a `drawImage` call: the default
Fourier-based drawing, or photon shooting (`method='phot'`). -/
inductive DrawMethod
  | fourier
  | phot
deriving DecidableEq

/-- The geometry and method of one `drawImage` call. -/
structure DrawSpec where
  nx : ℕ
  ny : ℕ
  scale : ℚ
  method : DrawMethod
  n_photons : Option ℕ

/-- Line 131: `psf.drawImage(nx=args.nx, ny=args.nx, scale=args.scale)`. -/
def fftDrawSpec (args : Args) : DrawSpec :=
  ⟨args.nx, args.nx, args.scale, DrawMethod.fourier, none⟩

/-- Lines 136-137: `secondKick.drawImage(nx=args.nx, ny=args.nx,
scale=args.scale, method='phot', n_photons=args.nphot)`. -/
def secondKickDrawSpec (args : Args) : DrawSpec :=
  ⟨args.nx, args.nx, args.scale, DrawMethod.phot, some args.nphot⟩

/-! ### Output-directory creation (lines 166-169)

`os.path.split` and the non-recursive `os.mkdir` are embedded from their
documented POSIX semantics.  The filesystem is a list of existing directory
paths relative to the working directory; the empty path never exists
(`os.path.exists("") == False`). -/

/-- Remove trailing `'/'` characters. -/
def rstripSlashes (cs : List Char) : List Char :=
  (cs.reverse.dropWhile (· = '/')).reverse

/-- `os.path.split`: cut after the last `'/'`; the head is stripped of
trailing slashes unless it consists only of slashes. -/
def splitPath (p : String) : String × String :=
  let rev := p.data.reverse
  let tail := (rev.takeWhile (· ≠ '/')).reverse
  let head := (rev.dropWhile (· ≠ '/')).reverse
  if head ≠ [] ∧ head.any (· ≠ '/') then (⟨rstripSlashes head⟩, ⟨tail⟩)
  else (⟨head⟩, ⟨tail⟩)

/-- Non-recursive `os.mkdir`: fails if the path is empty or already exists,
or if its own parent directory does not exist (it never creates
intermediate directories). -/
def osMkdir (fs : List String) (d : String) : Except String (List String) :=
  if d = "" then Except.error "FileNotFoundError"
  else if d ∈ fs then Except.error "FileExistsError"
  else if (splitPath d).1 = "" ∨ (splitPath d).1 ∈ fs then Except.ok (d :: fs)
  else Except.error "FileNotFoundError"

/-- Lines 166-168, executed after all rendering is done:
`dirname, filename = os.path.split(args.outfile)`; if the directory does not
exist, a single non-recursive `os.mkdir(dirname)` is attempted. -/
def ensureOutputDir (fs : List String) (outfile : String) :
    Except String (List String) :=
  if (splitPath outfile).1 ∈ fs then Except.ok fs
  else osMkdir fs (splitPath outfile).1

lemma maxRefAlt_eq : maxRefAlt = 15.46 := by norm_num [maxRefAlt, Ellerbroek_alts]

lemma zip_table_eq : Ellerbroek_alts.zip Ellerbroek_weights =
    [(0, 0.652), (2.58, 0.172), (5.16, 0.055),
     (7.73, 0.025), (12.89, 0.074), (15.46, 0.022)] := by
  norm_num [Ellerbroek_alts, Ellerbroek_weights]

/-- The interpolated reference weight is strictly positive anywhere inside the
table's altitude range (every tabulated weight is positive and linear
interpolation stays between neighboring values). -/
lemma Ellerbroek_interp_pos (x : ℚ) (_h0 : 0 ≤ x) (h1 : x ≤ maxRefAlt) :
    0 < Ellerbroek_interp x := by
  rw [maxRefAlt_eq] at h1
  rw [Ellerbroek_interp, zip_table_eq]
  simp only [lininterp]
  split_ifs <;> · push_neg at * ; norm_num ; linarith

lemma sum_map_div (l : List ℚ) (c : ℚ) : (l.map (· / c)).sum = l.sum / c := by
  induction l with
  | nil => simp
  | cons a t ih => simp [ih, add_div]

lemma npSum_map_some (l : List ℚ) : npSum (l.map some) = some l.sum := by
  induction l with
  | nil => rfl
  | cons a t ih =>
      simp only [npSum, List.map_cons, List.foldr_cons, List.sum_cons] at ih ⊢
      rw [ih]

lemma seqOpt_map_some (l : List ℚ) : seqOpt (l.map some) = some l := by
  induction l with
  | nil => rfl
  | cons a t ih => simp [seqOpt, ih]

lemma nsub_pos (n : ℕ) (h : 2 ≤ n) : (0 : ℚ) < (n : ℚ) - 1 := by
  have h2 : (2 : ℚ) ≤ (n : ℚ) := by exact_mod_cast h
  linarith

/-- With a nonzero spacing denominator (`n ≥ 2`), every NumPy altitude is
finite. -/
lemma altsNp_eq (n : ℕ) (h : 2 ≤ n) :
    altsNp n = ((List.range n).map
      (fun i : ℕ => maxRefAlt * (i : ℚ) / ((n : ℚ) - 1))).map some := by
  have hd' : ((n : ℚ) - 1) ≠ 0 := (nsub_pos n h).ne'
  simp [altsNp, npDiv, hd', List.map_map, Function.comp]

lemma maxRefAlt_nonneg : (0 : ℚ) ≤ maxRefAlt := by rw [maxRefAlt_eq]; norm_num

/-- Every placed altitude lies inside the reference table's range. -/
lemma placed_alt_bounds (n : ℕ) (h : 2 ≤ n) (i : ℕ) (hi : i < n) :
    0 ≤ maxRefAlt * (i : ℚ) / ((n : ℚ) - 1) ∧
      maxRefAlt * (i : ℚ) / ((n : ℚ) - 1) ≤ maxRefAlt := by
  have hd := nsub_pos n h
  have hm := maxRefAlt_nonneg
  constructor
  · apply div_nonneg (mul_nonneg hm (by positivity)) hd.le
  · rw [div_le_iff₀ hd]
    have hin : (i : ℚ) ≤ (n : ℚ) - 1 := by
      have : (i : ℚ) + 1 ≤ (n : ℚ) := by exact_mod_cast Nat.succ_le_of_lt hi
      linarith
    nlinarith

/-- The interpolated (pre-normalization) weights are positive with positive
sum, for any layer count `n ≥ 2`. -/
lemma interp_weights_sum_pos (n : ℕ) (h : 2 ≤ n) :
    0 < (((List.range n).map
        (fun i : ℕ => maxRefAlt * (i : ℚ) / ((n : ℚ) - 1))).map
          Ellerbroek_interp).sum := by
  apply List.sum_pos
  · intro w hw
    simp only [List.map_map, List.mem_map, List.mem_range, Function.comp] at hw
    obtain ⟨i, hi, rfl⟩ := hw
    obtain ⟨hb0, hb1⟩ := placed_alt_bounds n h i hi
    exact Ellerbroek_interp_pos _ hb0 hb1
  · simp only [ne_eq, List.map_eq_nil_iff, List.range_eq_nil]
    omega

/-- For `n ≥ 2` every value is finite and the sum is nonzero, so the
finite-regime view agrees with the NumPy evaluation and is `ok`. -/
lemma layerProfile_ok (n : ℕ) (h : 2 ≤ n) :
    layerProfile n = Except.ok
      ((List.range n).map (fun i : ℕ => maxRefAlt * (i : ℚ) / ((n : ℚ) - 1)),
       (((List.range n).map
           (fun i : ℕ => maxRefAlt * (i : ℚ) / ((n : ℚ) - 1))).map
             Ellerbroek_interp).map
         (· / (((List.range n).map
             (fun i : ℕ => maxRefAlt * (i : ℚ) / ((n : ℚ) - 1))).map
               Ellerbroek_interp).sum)) := by
  have hS := interp_weights_sum_pos n h
  set A : List ℚ := (List.range n).map
      (fun i : ℕ => maxRefAlt * (i : ℚ) / ((n : ℚ) - 1)) with hA
  set W : List ℚ := A.map Ellerbroek_interp with hW
  have h1 : (layerProfileNp n).1 = altsNp n := rfl
  have h2 : (layerProfileNp n).2 =
      ((altsNp n).map interpNp).map
        (fun w => npDivOpt w (npSum ((altsNp n).map interpNp))) := rfl
  have hAe : altsNp n = A.map some := altsNp_eq n h
  have hws : (altsNp n).map interpNp = W.map some := by
    rw [hAe, hW]
    simp [List.map_map, Function.comp, interpNp]
  have hnorm : ((altsNp n).map interpNp).map
      (fun w => npDivOpt w (npSum ((altsNp n).map interpNp))) =
      (W.map (· / W.sum)).map some := by
    rw [hws, npSum_map_some]
    simp [List.map_map, Function.comp, npDivOpt, npDiv, hS.ne']
  rw [layerProfile, h1, h2, hnorm, hAe, seqOpt_map_some, seqOpt_map_some]

/-- C1: for every requested layer count `n ≥ 2` the layer-profile builder
returns exactly `n` weights (linear interpolation of the 6-entry Ellerbroek
table at the placed altitudes), and after renormalization the weights sum to
exactly 1. -/
theorem layerProfile_weights_sum_to_one (n : ℕ) (h : 2 ≤ n) :
    ∃ alts ws, layerProfile n = Except.ok (alts, ws) ∧
      ws.length = n ∧ ws.sum = 1 := by
  rw [layerProfile_ok n h]
  refine ⟨_, _, rfl, by simp, ?_⟩
  rw [sum_map_div]
  exact div_self (interp_weights_sum_pos n h).ne'

/-- C1 witness: concrete instance at `n = 2`. -/
theorem layerProfile_weights_sum_to_one_witness :
    ∃ alts ws, layerProfile 2 = Except.ok (alts, ws) ∧
      ws.length = 2 ∧ ws.sum = 1 :=
  layerProfile_weights_sum_to_one 2 (by norm_num)

/-- C2 counterexample: at `nlayers = 1` the altitude computation of line 67
completes without raising — NumPy's float-array division by the zero
denominator `nlayers - 1` only emits a `RuntimeWarning` and yields the
single non-finite value nan (embedded as `none`) — refuting the claimed
arithmetic-error raise at this input. -/
theorem nlayers_one_raises_counterexample : altsNp 1 = [none] := by
  norm_num [altsNp, npDiv]

/-- C2 (amended): requesting `nlayers = 1` raises no arithmetic error: the
zero-denominator NumPy array division only warns and yields nan, so the
builder silently produces a one-layer profile whose single altitude and
single renormalized weight are the non-finite value nan — a profile the
finite-rational view can only flag as non-finite, not represent. -/
theorem nlayers_one_silent_nan_profile :
    layerProfileNp 1 = ([none], [none]) ∧
      (layerProfileNp 1).1.length = 1 ∧
      (layerProfileNp 1).2.length = 1 ∧
      layerProfile 1 = Except.error "nan" := by
  refine ⟨?_, ?_, ?_, ?_⟩ <;>
    norm_num [layerProfileNp, altsNp, npDiv, interpNp, npSum, npDivOpt,
      layerProfile, seqOpt]

/-- C8: for every `n ≥ 2` the produced altitudes are sorted (monotonically
non-decreasing), uniformly spaced with gap `maxRefAlt / (n - 1)`, start at 0,
and end at the maximum altitude of the reference table. -/
theorem layerProfile_alts_uniform (n : ℕ) (h : 2 ≤ n) :
    ∃ alts ws, layerProfile n = Except.ok (alts, ws) ∧
      alts.length = n ∧
      alts[0]? = some 0 ∧
      alts[n - 1]? = some maxRefAlt ∧
      List.Sorted (· ≤ ·) alts ∧
      (∀ i, i + 1 < n → ∀ a b, alts[i]? = some a → alts[i + 1]? = some b →
        b - a = maxRefAlt / ((n : ℚ) - 1)) := by
  have hd := nsub_pos n h
  have hd' : ((n : ℚ) - 1) ≠ 0 := hd.ne'
  rw [layerProfile_ok n h]
  set f : ℕ → ℚ := fun i : ℕ => maxRefAlt * (i : ℚ) / ((n : ℚ) - 1) with hf
  have hget : ∀ i, i < n → ((List.range n).map f)[i]? = some (f i) := by
    intro i hi
    simp [hi]
  refine ⟨_, _, rfl, by simp, ?_, ?_, ?_, ?_⟩
  · rw [hget 0 (by omega)]
    simp [hf]
  · rw [hget (n - 1) (by omega)]
    have hc : ((n - 1 : ℕ) : ℚ) = (n : ℚ) - 1 := by
      push_cast [Nat.cast_sub (by omega : 1 ≤ n)]
      ring
    simp only [hf, hc, mul_div_assoc, div_self hd', mul_one]
  · exact List.Pairwise.map f
      (fun a b hab => by
        rw [hf]
        rw [div_le_div_iff_of_pos_right hd]
        exact mul_le_mul_of_nonneg_left (by exact_mod_cast hab.le) maxRefAlt_nonneg)
      (List.pairwise_lt_range n)
  · intro i hi a b ha hb
    rw [hget i (by omega)] at ha
    rw [hget (i + 1) hi] at hb
    have ha' : f i = a := Option.some.inj ha
    have hb' : f (i + 1) = b := Option.some.inj hb
    subst ha'
    subst hb'
    simp only [hf]
    push_cast
    field_simp
    ring

/-- C8 witness: concrete instance at `n = 2`. -/
theorem layerProfile_alts_uniform_witness :
    ∃ alts ws, layerProfile 2 = Except.ok (alts, ws) ∧
      alts.length = 2 ∧
      alts[0]? = some 0 ∧
      alts[2 - 1]? = some maxRefAlt ∧
      List.Sorted (· ≤ ·) alts ∧
      (∀ i, i + 1 < 2 → ∀ a b, alts[i]? = some a → alts[i + 1]? = some b →
        b - a = maxRefAlt / ((2 : ℚ) - 1)) :=
  layerProfile_alts_uniform 2 (by norm_num)

lemma windLoop_get (maxSpeed : ℚ) (seed : ℕ) :
    ∀ n k i, i < n →
      (windLoop maxSpeed (streamState seed k) n)[i]? =
        some (uDraw seed (k + 2 * i) * maxSpeed,
              uDraw seed (k + 2 * i + 1) * 360) := by
  intro n
  induction n with
  | zero => intro k i hi; omega
  | succ m ih =>
      intro k i hi
      have h1 : lcg (streamState seed k) = streamState seed (k + 1) := rfl
      have h2 : lcg (lcg (streamState seed k)) = streamState seed (k + 2) := rfl
      cases i with
      | zero =>
          have h2' : lcg (streamState seed (k + 1)) = streamState seed (k + 1 + 1) :=
            rfl
          simp only [windLoop, h1, h2', List.getElem?_cons_zero, uDraw]
      | succ j =>
          simp only [windLoop, h2, List.getElem?_cons_succ]
          have e1 : k + 2 + 2 * j = k + 2 * (j + 1) := by omega
          rw [ih (k + 2) j (by omega), e1]

lemma windLoop_length (maxSpeed : ℚ) (st n : ℕ) :
    (windLoop maxSpeed st n).length = n := by
  induction n generalizing st with
  | zero => rfl
  | succ m ih => simp [windLoop, ih]

/-- C5: the wind-assignment step is a pure function of the seed and the layer
count: it returns one `(speed, direction)` pair per layer where the `i`-th
layer's speed is the `2i`-th stream draw scaled by `max_speed` and its
direction is the `2i+1`-th draw scaled by a full turn (speed first, then
direction, in layer order); hence two runs with equal seed and equal
`nlayers` produce bit-identical sequences. -/
theorem windAssignment_deterministic (seed nlayers : ℕ) (maxSpeed : ℚ) :
    (windAssignment seed nlayers maxSpeed).length = nlayers ∧
    (∀ i, i < nlayers →
      (windAssignment seed nlayers maxSpeed)[i]? =
        some (uDraw seed (2 * i) * maxSpeed, uDraw seed (2 * i + 1) * 360)) ∧
    (∀ seed2 nlayers2, seed2 = seed → nlayers2 = nlayers →
      windAssignment seed2 nlayers2 maxSpeed =
        windAssignment seed nlayers maxSpeed) := by
  refine ⟨windLoop_length _ _ _, ?_, ?_⟩
  · intro i hi
    have h := windLoop_get maxSpeed seed nlayers 0 i hi
    simpa [windAssignment] using h
  · intro seed2 nlayers2 hs hn
    rw [hs, hn]

/-- C5 witness: concrete instance (seed 1, two layers, `max_speed` 20). -/
theorem windAssignment_deterministic_witness :
    (windAssignment 1 2 20)[1]? =
      some (uDraw 1 2 * 20, uDraw 1 3 * 360) :=
  (windAssignment_deterministic 1 2 20).2.1 1 (by norm_num)

lemma kcrits_get (kmin kmax : ℝ) (h1 : 0 < kmin) (h2 : 0 < kmax)
    (i : ℕ) (hi : i < 4) :
    (kcrits kmin kmax)[i]? = some (kmin * (kmax / kmin) ^ ((i : ℝ) / 3)) := by
  have h10 : (0 : ℝ) < 10 := by norm_num
  have h10' : (10 : ℝ) ≠ 1 := by norm_num
  have hmap : (kcrits kmin kmax)[i]? =
      some ((10 : ℝ) ^ (Real.logb 10 kmin +
        (i : ℝ) * (Real.logb 10 kmax - Real.logb 10 kmin) / (((4 : ℕ) : ℝ) - 1))) := by
    simp [kcrits, logspace, hi]
  rw [hmap]
  congr 1
  have h3 : (((4 : ℕ) : ℝ) - 1) = 3 := by norm_num
  rw [h3, Real.rpow_add h10, Real.rpow_logb h10 h10' h1]
  congr 1
  rw [show (i : ℝ) * (Real.logb 10 kmax - Real.logb 10 kmin) / 3 =
        (Real.logb 10 kmax - Real.logb 10 kmin) * ((i : ℝ) / 3) by ring]
  rw [Real.rpow_mul h10.le, Real.rpow_sub h10,
    Real.rpow_logb h10 h10' h2, Real.rpow_logb h10 h10' h1]

/-- C3: for positive `kmin`, `kmax` the cutoff sweep iterates over exactly 4
log-spaced values, the `i`-th being `kmin * (kmax/kmin)^(i/3)`; the grid has
first element `kmin` and last element `kmax` (inclusive endpoints), its size
is fixed at 4 independent of the range width, and in the degenerate case
`kmin = kmax` all 4 (repeated) entries equal `kmin`. -/
theorem kcrits_sweep_spec (kmin kmax : ℝ) (h1 : 0 < kmin) (h2 : 0 < kmax) :
    (kcrits kmin kmax).length = 4 ∧
    (∀ i : ℕ, i < 4 → (kcrits kmin kmax)[i]? =
      some (kmin * (kmax / kmin) ^ ((i : ℝ) / 3))) ∧
    (kcrits kmin kmax)[0]? = some kmin ∧
    (kcrits kmin kmax)[3]? = some kmax ∧
    (kmin = kmax → ∀ x ∈ kcrits kmin kmax, x = kmin) := by
  refine ⟨by simp [kcrits, logspace], kcrits_get kmin kmax h1 h2, ?_, ?_, ?_⟩
  · rw [kcrits_get kmin kmax h1 h2 0 (by norm_num)]
    norm_num
  · rw [kcrits_get kmin kmax h1 h2 3 (by norm_num)]
    have h33 : ((3 : ℕ) : ℝ) / 3 = 1 := by norm_num
    rw [h33, Real.rpow_one]
    field_simp
  · intro he x hx
    subst he
    simp only [kcrits, logspace, List.mem_map, List.mem_range] at hx
    obtain ⟨i, _, rfl⟩ := hx
    have h10 : (0 : ℝ) < 10 := by norm_num
    have h10' : (10 : ℝ) ≠ 1 := by norm_num
    rw [show Real.logb 10 kmin + (i : ℝ) *
          (Real.logb 10 kmin - Real.logb 10 kmin) / (((4 : ℕ) : ℝ) - 1) =
        Real.logb 10 kmin by ring]
    exact Real.rpow_logb h10 h10' h1

/-- C3 witness: concrete instance at `kmin = 0.05`, `kmax = 0.5`. -/
theorem kcrits_sweep_spec_witness :
    (kcrits 0.05 0.5).length = 4 ∧
      (kcrits 0.05 0.5)[0]? = some (0.05 : ℝ) ∧
      (kcrits 0.05 0.5)[3]? = some (0.5 : ℝ) := by
  obtain ⟨hl, _, hh, ht, _⟩ := kcrits_sweep_spec 0.05 0.5 (by norm_num) (by norm_num)
  exact ⟨hl, hh, ht⟩

/-- C6: every one of the 4 sweep iterations constructs its screen stack from
a stream freshly seeded with the fixed secondary seed `seed + 1`: the seed
(and hence the whole deterministic stream fed to the screen constructor) is
identical across the sweep, and differs from the seed of the layer/wind
stream. -/
theorem sweep_atm_seed_fixed (seed : ℕ) (kmin kmax : ℝ) :
    (sweepIters seed kmin kmax).length = 4 ∧
    (∀ it ∈ sweepIters seed kmin kmax, it.atmSeed = seed + 1) ∧
    (∀ it1 ∈ sweepIters seed kmin kmax, ∀ it2 ∈ sweepIters seed kmin kmax,
      it1.atmSeed = it2.atmSeed ∧
        streamState it1.atmSeed = streamState it2.atmSeed) ∧
    (∀ it ∈ sweepIters seed kmin kmax, it.atmSeed ≠ seed) := by
  have hmem : ∀ it ∈ sweepIters seed kmin kmax, it.atmSeed = seed + 1 := by
    intro it hit
    simp only [sweepIters, List.mem_map] at hit
    obtain ⟨kc, _, rfl⟩ := hit
    rfl
  refine ⟨by simp [sweepIters, kcrits, logspace], hmem, ?_, ?_⟩
  · intro it1 h1 it2 h2
    rw [hmem it1 h1, hmem it2 h2]
    exact ⟨rfl, rfl⟩
  · intro it hit
    rw [hmem it hit]
    omega

/-- C6 witness: concrete instance. -/
theorem sweep_atm_seed_fixed_witness : (sweepIters 1 1 1).length = 4 :=
  (sweep_atm_seed_fixed 1 1 1).1

/-- C7: the per-layer Fried parameter is `net * w^(-3/5)`, the fudge factor
is applied afterwards, multiplicatively and uniformly to every layer (also
raised to the `-3/5` power), and the resulting per-layer value is strictly
decreasing in the layer weight. -/
theorem layer_r0_decreasing_in_weight (net tf w1 w2 : ℝ)
    (hnet : 0 < net) (htf : 0 < tf) (hw1 : 0 < w1) (h12 : w1 < w2) :
    apply_turb_factor tf [layer_r0 net w1, layer_r0 net w2] =
      [net * w1 ^ (-(3 : ℝ) / 5) * tf ^ (-(3 : ℝ) / 5),
       net * w2 ^ (-(3 : ℝ) / 5) * tf ^ (-(3 : ℝ) / 5)] ∧
    layer_r0 net w2 * tf ^ (-(3 : ℝ) / 5) <
      layer_r0 net w1 * tf ^ (-(3 : ℝ) / 5) := by
  constructor
  · simp [apply_turb_factor, layer_r0]
  · have hw2 : 0 < w2 := lt_trans hw1 h12
    have hlt : w1 ^ ((3 : ℝ) / 5) < w2 ^ ((3 : ℝ) / 5) :=
      Real.rpow_lt_rpow hw1.le h12 (by norm_num)
    have hp1 : 0 < w1 ^ ((3 : ℝ) / 5) := Real.rpow_pos_of_pos hw1 _
    have hneg : ∀ w : ℝ, 0 ≤ w → w ^ (-(3 : ℝ) / 5) = (w ^ ((3 : ℝ) / 5))⁻¹ := by
      intro w hw
      rw [show (-(3 : ℝ) / 5) = -((3 : ℝ) / 5) by ring, Real.rpow_neg hw]
    have hk : w2 ^ (-(3 : ℝ) / 5) < w1 ^ (-(3 : ℝ) / 5) := by
      rw [hneg w1 hw1.le, hneg w2 hw2.le]
      exact inv_strictAnti₀ hp1 hlt
    have htfp : 0 < tf ^ (-(3 : ℝ) / 5) := Real.rpow_pos_of_pos htf _
    unfold layer_r0
    exact mul_lt_mul_of_pos_right (mul_lt_mul_of_pos_left hk hnet) htfp

/-- C7 witness: concrete instance at `net = 0.15`, `tf = 1`, weights 1 < 2. -/
theorem layer_r0_decreasing_in_weight_witness :
    apply_turb_factor 1 [layer_r0 0.15 1, layer_r0 0.15 2] =
      [0.15 * (1 : ℝ) ^ (-(3 : ℝ) / 5) * (1 : ℝ) ^ (-(3 : ℝ) / 5),
       0.15 * (2 : ℝ) ^ (-(3 : ℝ) / 5) * (1 : ℝ) ^ (-(3 : ℝ) / 5)] ∧
    layer_r0 0.15 2 * (1 : ℝ) ^ (-(3 : ℝ) / 5) <
      layer_r0 0.15 1 * (1 : ℝ) ^ (-(3 : ℝ) / 5) :=
  layer_r0_decreasing_in_weight 0.15 1 1 2 (by norm_num) (by norm_num)
    (by norm_num) (by norm_num)

/-- C4: if the adaptive-moment fit fails (recoverable error) on either image
of a sweep point, that image's annotation is `none`, both rendered images
still appear in the panel, and the sweep still produces all 4 panels (no
abort, no retry). -/
theorem measurement_failure_is_local {Img : Type} (fit : Img → Except Unit ℚ)
    (render : ℝ → Img × Img) (kmin kmax : ℝ) :
    (sweepPanels fit render kmin kmax).length = 4 ∧
    (∀ a b : Img, ∀ e, fit a = Except.error e →
      (processPanel fit a b).topText = none ∧
        (processPanel fit a b).topImage = a ∧
        (processPanel fit a b).botImage = b) ∧
    (∀ a b : Img, ∀ e, fit b = Except.error e →
      (processPanel fit a b).botText = none ∧
        (processPanel fit a b).topImage = a ∧
        (processPanel fit a b).botImage = b) := by
  refine ⟨by simp [sweepPanels, kcrits, logspace], ?_, ?_⟩
  · intro a b e he
    exact ⟨by simp [processPanel, tryFindAdaptiveMom, he], rfl, rfl⟩
  · intro a b e he
    exact ⟨by simp [processPanel, tryFindAdaptiveMom, he], rfl, rfl⟩

/-- C4 witness: an always-failing fitter still yields a panel with both
images and no annotation. -/
theorem measurement_failure_is_local_witness :
    (processPanel (fun _ : ℚ => (Except.error () : Except Unit ℚ)) 1 2).topText
        = none ∧
      (processPanel (fun _ : ℚ => (Except.error () : Except Unit ℚ)) 1 2).topImage
        = 1 ∧
      (processPanel (fun _ : ℚ => (Except.error () : Except Unit ℚ)) 1 2).botImage
        = 2 :=
  (measurement_failure_is_local (fun _ : ℚ => (Except.error () : Except Unit ℚ))
    (fun _ => (0, 0)) 1 1).2.1 1 2 () rfl

/-- C9: for each sweep point the full-simulation image and the
analytic-approximation image are rendered with identical square dimensions
(`nx` by `nx`) and identical pixel scale; only the rendering method (and its
photon count) differs. -/
theorem draw_specs_comparable (args : Args) :
    (fftDrawSpec args).nx = args.nx ∧
    (fftDrawSpec args).ny = args.nx ∧
    (secondKickDrawSpec args).nx = args.nx ∧
    (secondKickDrawSpec args).ny = args.nx ∧
    (fftDrawSpec args).scale = (secondKickDrawSpec args).scale ∧
    (fftDrawSpec args).method ≠ (secondKickDrawSpec args).method ∧
    (fftDrawSpec args).n_photons = none ∧
    (secondKickDrawSpec args).n_photons = some args.nphot := by
  refine ⟨rfl, rfl, rfl, rfl, rfl, ?_, rfl, rfl⟩
  simp [fftDrawSpec, secondKickDrawSpec]

/-- C10: output-directory creation is single-level only.  If the output
path has an empty directory component (a bare filename), or its directory
is missing and so is that directory's own parent, the `mkdir` call raises
and the save step fails. -/
theorem output_dir_creation_single_level (fs : List String) (outfile : String)
    (hempty : "" ∉ fs) :
    ((splitPath outfile).1 = "" →
      ensureOutputDir fs outfile = Except.error "FileNotFoundError") ∧
    ((splitPath outfile).1 ∉ fs →
      (splitPath (splitPath outfile).1).1 ≠ "" →
      (splitPath (splitPath outfile).1).1 ∉ fs →
      ensureOutputDir fs outfile = Except.error "FileNotFoundError") := by
  constructor
  · intro h0
    rw [ensureOutputDir, h0]
    simp only [if_neg hempty]
    rfl
  · intro h1 h2 h3
    rw [ensureOutputDir, if_neg h1, osMkdir]
    have hd : (splitPath outfile).1 ≠ "" := by
      intro he
      rw [he] at h2
      exact h2 rfl
    rw [if_neg hd, if_neg h1, if_neg (by push_neg; exact ⟨h2, h3⟩)]

/-- C10 witness: a bare filename (`os.path.split` gives an empty directory)
makes the save step fail, and so does a missing grandparent directory. -/
theorem output_dir_creation_single_level_witness :
    ensureOutputDir ["output"] "secondKick.png" =
        Except.error "FileNotFoundError" ∧
      ensureOutputDir ["output"] "a/b/c.png" =
        Except.error "FileNotFoundError" :=
  ⟨(output_dir_creation_single_level ["output"] "secondKick.png"
      (by decide)).1 (by decide),
   (output_dir_creation_single_level ["output"] "a/b/c.png"
      (by decide)).2 (by decide) (by decide) (by decide)⟩
